import Mathlib

/-!
# Verification of the tyshemo schema engine and ty facade

This file gives a shallow embedding, in Lean 4, of the parts of the
tyshemo repository that the verified claims are about:

* `src/schema.js` — the `Schema` class: per-field meta evaluation
  (`$determine`, `$message`, `$default`), the write path (`set`, `$set`),
  validation (`validate`, `$validate`), serialization (`export`) and the
  central error-routing helper `_trydo`;
* the `Ty` facade (`expect`/`catch`);
* `src/tuple.js` — `Tuple.assert`.

JavaScript values are modelled by the pure inductive `JSValue`.
JavaScript functions that appear in meta positions are modelled as Lean
functions; a function that may throw returns `Except JSValue α`
(`.error e` models `throw e`).  The schema's `onError` hook and per-field
`catch` handlers are modelled as total functions (the claims under study
never depend on those handlers themselves throwing).  Every call the
schema makes to `onError` is recorded, in call order, in a `List JSValue`
of events that each operation returns alongside its result; «reports an
error through onError» is formalised as membership of the corresponding
error object in that list.

Methods whose JavaScript names start with `$` keep their name with the
`$` spelled out in words, since `$` is not a legal Lean identifier
character: `$default` is `Schema.getDefault`, `$message` is
`Schema.getMessage`, `$determine` is `Schema.getDetermine`, `$set` is
`Schema.applySet`, `$validate` is `Schema.makeValidate`.  `export` is a
Lean keyword, so `Schema.export` is modelled as `Schema.exportData`.
-/

/-- A JavaScript runtime value, restricted to pure data: `undefined`,
`null`, booleans, numbers (modelled as integers; the claims never involve
fractional or NaN arithmetic), strings, `Error` instances (carrying their
message), arrays, and plain objects (ordered key/value lists, as JS
objects preserve insertion order). -/
inductive JSValue where
  | undefined
  | null
  | bool (b : Bool)
  | num (n : Int)
  | str (s : String)
  | error (msg : String)
  | arr (items : List JSValue)
  | obj (fields : List (String × JSValue))

/-- JavaScript truthiness of a `JSValue`: `undefined`, `null`, `false`,
`0` and `''` are falsy; errors, arrays and objects are always truthy. -/
def truthy : JSValue → Bool
  | .undefined => false
  | .null => false
  | .bool b => b
  | .num n => n != 0
  | .str s => !s.isEmpty
  | .error _ => true
  | .arr _ => true
  | .obj _ => true

/-- `a || b` on JavaScript values: `a` when truthy, otherwise `b`. -/
def jsOr (a b : JSValue) : JSValue := if truthy a then a else b

/-- ts-fns `isEmpty`: `undefined`, `null`, the empty string, the empty
array and the empty object are empty; everything else is not. -/
def isEmptyJS : JSValue → Bool
  | .undefined => true
  | .null => true
  | .str s => s.isEmpty
  | .arr items => items.isEmpty
  | .obj fields => fields.isEmpty
  | _ => false

/-- ts-fns `isString` on modelled values. -/
def isStringJS : JSValue → Bool
  | .str _ => true
  | _ => false

/-- ts-fns `isObject` (plain object) on modelled values. -/
def isObjectJS : JSValue → Bool
  | .obj _ => true
  | _ => false

/-- ts-fns `isArray` on modelled values. -/
def isArrayJS : JSValue → Bool
  | .arr _ => true
  | _ => false

/-- Property read `data[key]` on an object value; `undefined` when the key
is missing or the value is not an object. -/
def jget (data : JSValue) (key : String) : JSValue :=
  match data with
  | .obj fields => ((fields.find? (fun p => p.1 == key)).map (fun p => p.2)).getD .undefined
  | _ => .undefined

/-- Property write `target[key] = v` on an ordered key/value list: an
existing key keeps its position and gets the new value, a new key is
appended (JS object insertion-order semantics). -/
def setKV : List (String × JSValue) → String → JSValue → List (String × JSValue)
  | [], k, v => [(k, v)]
  | (k0, v0) :: rest, k, v =>
    if k0 == k then (k0, v) :: rest else (k0, v0) :: setKV rest k v

/-- `Object.assign(base, …adds)` on ordered key/value lists: every entry
of `adds` is written onto `base` in order. -/
def objAssignL (base adds : List (String × JSValue)) : List (String × JSValue) :=
  adds.foldl (fun acc p => setKV acc p.1 p.2) base

/-- The own enumerable entries of a value, as used by `Object.assign`:
the fields of an object, nothing for a primitive.  (Copying the character
indices of a string source, a JS corner case no claim exercises, is not
modelled.) -/
def objEntries : JSValue → List (String × JSValue)
  | .obj fields => fields
  | _ => []

mutual

/-- ts-fns `clone`: a deep copy of a value, rebuilding every array and
object node.  Freshness of the copy ("never the same mutable reference")
is by construction: every constructor of the result is newly built. -/
def cloneJS : JSValue → JSValue
  | .undefined => .undefined
  | .null => .null
  | .bool b => .bool b
  | .num n => .num n
  | .str s => .str s
  | .error m => .error m
  | .arr items => .arr (cloneJSList items)
  | .obj fields => .obj (cloneJSFields fields)

/-- Deep copy of a list of values (array elements). -/
def cloneJSList : List JSValue → List JSValue
  | [] => []
  | x :: xs => cloneJS x :: cloneJSList xs

/-- Deep copy of the field list of an object. -/
def cloneJSFields : List (String × JSValue) → List (String × JSValue)
  | [] => []
  | (k, v) :: fs => (k, cloneJS v) :: cloneJSFields fs

end

/-! ## Meta-node types

A field definition (`FieldDef`) is the meta bag of `schema.js`.  Each
meta slot is an `Option`; `none` models an absent property.  A slot whose
JavaScript value may be either a plain value or a function is modelled by
a small sum type; by convention an object sitting in the
`required`/`readonly`/`disabled` position (which may carry `determine`
and `message` members that are themselves functions) is always encoded by
the dedicated `objn` constructor, and `val` carries non-object values. -/

/-- The `default` meta: directly a value, or a zero-argument producer. -/
inductive DefaultNode where
  | val (v : JSValue)
  | func (f : Unit → JSValue)

/-- The `determine` member of a `{ determine, message }` meta object:
a raw value or a zero-argument function (called with the context as
`this`) that may throw. -/
inductive DWord (Ctx : Type) where
  | dval (v : JSValue)
  | dfunc (f : Ctx → Except JSValue JSValue)

/-- The `message` member of a `{ determine, message }` meta object: a raw
value or a function receiving the meta name, that may throw. -/
inductive MWord (Ctx : Type) where
  | mval (v : JSValue)
  | mfunc (f : Ctx → String → Except JSValue JSValue)

/-- A `required` / `readonly` / `disabled` meta node: a raw value (boolean,
string, …), a function of the context, or an object with optional
`determine` and `message` members. -/
inductive TriNode (Ctx : Type) where
  | val (v : JSValue)
  | func (f : Ctx → Except JSValue JSValue)
  | objn (determine : Option (DWord Ctx)) (message : Option (MWord Ctx))

/-- The `drop` meta: a raw value (only boolean `true` drops) or a function
`(value, key, data)` of the context. -/
inductive DropNode (Ctx : Type) where
  | val (v : JSValue)
  | func (f : Ctx → JSValue → String → JSValue → Except JSValue JSValue)

/-- Signature shared by the `map` and `flat` metas:
`(value, key, data)` against the context, possibly throwing. -/
abbrev FNode (Ctx : Type) := Ctx → JSValue → String → JSValue → Except JSValue JSValue

/-- The `determine` member of a validator: a raw value (boolean `false`
skips the validator) or a function `(value, key)`. -/
inductive VDet (Ctx : Type) where
  | val (v : JSValue)
  | func (f : Ctx → JSValue → String → Except JSValue JSValue)

/-- The `message` member of a validator: a raw value (a string is used as
the error message) or a function `(value, key, result)`. -/
inductive VMsg (Ctx : Type) where
  | val (v : JSValue)
  | func (f : Ctx → JSValue → String → JSValue → Except JSValue JSValue)

/-- One entry of the `validators` meta. -/
structure ValidatorDef (Ctx : Type) where
  determine : Option (VDet Ctx)
  validate : Ctx → JSValue → String → Except JSValue JSValue
  message : Option (VMsg Ctx)

/-- A field definition: the meta bag interpreted by `schema.js`.  The
`type` meta is abstracted by the error that the ty layer reports for this
field's configured pattern — see `Modelled from the spec` below.  `catch`
is a Lean keyword, so the per-field error sink is the field `catchf`. -/
structure FieldDef (Ctx : Type) where
  default : Option DefaultNode
  compute : Option (Ctx → JSValue)
  /-- Modelled from the spec: the classes behind the `type` meta
  (`type.js`, `dict.js`, `rule.js`) are not under `src/`, so a pattern is
  abstracted by its observable behaviour in `$set`/`validate`: given the
  field key and a candidate value it returns the `TyError` (as a value)
  that `Ty.catch(value).by(type)` — or, for a `Rule`,
  `Ty.catch({[key]: value}).by({[key]: type})` — would return, or `none`
  when the value matches.  The spec (§4.2) fixes `catch` as the
  non-throwing wrapper returning the error or null. -/
  type : Option (String → JSValue → Option JSValue)
  message : Option JSValue
  validators : Option (List (ValidatorDef Ctx))
  drop : Option (DropNode Ctx)
  map : Option (FNode Ctx)
  flat : Option (FNode Ctx)
  setter : Option (Ctx → JSValue → Except JSValue JSValue)
  required : Option (TriNode Ctx)
  readonly : Option (TriNode Ctx)
  disabled : Option (TriNode Ctx)
  catchf : Option (Ctx → JSValue → JSValue)

/-- A schema: the ordered field definitions (`each`/`map` iterate own
enumerable properties in insertion order) together with the `onError`
hook.  `onError`'s return value is what `this.onError(err) || err` in
`_trydo` consults; the default hook `onError() {}` is `fun _ => .undefined`. -/
structure Schema (Ctx : Type) where
  defs : List (String × FieldDef Ctx)
  onError : JSValue → JSValue

/-- The *own* field definition registered for a key: the schema's own
enumerable properties, installed by the constructor's `define` calls. -/
def Schema.lookup {Ctx : Type} (sch : Schema Ctx) (key : String) : Option (FieldDef Ctx) :=
  ((sch.defs.find? (fun p => p.1 == key)).map (fun p => p.2))

/-- A field definition with every meta absent. -/
def fdEmpty {Ctx : Type} : FieldDef Ctx :=
  ⟨none, none, none, none, none, none, none, none, none, none, none, none, none⟩

/-- The key strings at which `this[key]` on a schema instance resolves
through the JS prototype chain to an inherited property even when no
field definition exists: the `Schema.prototype` methods of `schema.js`,
`constructor`, and the `Object.prototype` members every object inherits.
Each resolves to a function — or, for `__proto__`, to the prototype
object — on which ts-fns `inObject` (which requires a plain object) and
member destructuring find no metas, so the source treats such a `def`
exactly like a definition with no metas.  (The static `defualtMessages`
lives on the constructor, not the prototype, and is not inherited.) -/
def protoChainKeys : List String :=
  ["constructor", "$has", "$default", "$message", "$determine", "required",
   "disabled", "readonly", "get", "$set", "set", "$validate", "validate",
   "parse", "export", "_trydo", "onError",
   "toString", "toLocaleString", "valueOf", "hasOwnProperty", "isPrototypeOf",
   "propertyIsEnumerable", "__proto__", "__defineGetter__", "__defineSetter__",
   "__lookupGetter__", "__lookupSetter__"]

/-- `const def = this[key]`: an own field definition wins; otherwise a
key colliding with an inherited prototype property yields that truthy
property, whose meta lookups are all `undefined` — behaviourally the
all-absent definition `fdEmpty`; otherwise `undefined` (`none`), failing
the source's `!def` test. -/
def Schema.resolve {Ctx : Type} (sch : Schema Ctx) (key : String) : Option (FieldDef Ctx) :=
  match sch.lookup key with
  | some fd => some fd
  | none => if protoChainKeys.contains key then some fdEmpty else none

/-- Dynamic meta access `def[meta]` for the three tri-form metas, as used
by `$determine`; `none` also models `!inObject(meta, def)`. -/
def FieldDef.triMeta {Ctx : Type} (fd : FieldDef Ctx) (meta : String) : Option (TriNode Ctx) :=
  if meta = "required" then fd.required
  else if meta = "readonly" then fd.readonly
  else if meta = "disabled" then fd.disabled
  else none

/-! ## The error-routing wrapper `_trydo` -/

/-- `isFunction(handle) && handle.call(context, error)`: the value the
per-field `catch` handler contributes to a fallback chain (`false`, i.e.
falsy, when there is no handler). -/
def callHandle {Ctx : Type} (handle : Option (Ctx → JSValue → JSValue)) (ctx : Ctx)
    (e : JSValue) : JSValue :=
  match handle with
  | some h => h ctx e
  | none => .bool false

/-- The fallback closure every `_trydo` call site builds:
`(error) => isFunction(handle) && handle.call(context, error) || fallbackRes`. -/
def stdFallback {Ctx : Type} (handle : Option (Ctx → JSValue → JSValue)) (ctx : Ctx)
    (fallbackRes : JSValue) : JSValue → JSValue :=
  fun e => jsOr (callHandle handle ctx e) fallbackRes

/-- The `try`/`catch` body of `Schema._trydo` (the non-`force` path): run
`fn`; on a throw, build `err = {...basic, error}`, let
`e = this.onError(err) || err`, and return `fallback(e)`.  The second
component records the single argument passed to `onError`. -/
def trydoSafe (onErr : JSValue → JSValue) (fn : Except JSValue JSValue)
    (fallback : JSValue → JSValue) (basic : List (String × JSValue)) :
    JSValue × List JSValue :=
  match fn with
  | .ok v => (v, [])
  | .error error =>
    let err := JSValue.obj (basic ++ [("error", error)])
    (fallback (jsOr (onErr err) err), [err])

/-- `Schema._trydo(fn, fallback, basic, force)`: with `force` the raw call
is returned (a thrown error propagates); otherwise the `try`/`catch` of
`trydoSafe` runs and never rethrows. -/
def trydo (onErr : JSValue → JSValue) (fn : Except JSValue JSValue)
    (fallback : JSValue → JSValue) (basic : List (String × JSValue)) (force : Bool) :
    Except JSValue JSValue × List JSValue :=
  if force then (fn, [])
  else
    let r := trydoSafe onErr fn fallback basic
    (.ok r.1, r.2)

/-! ## `$determine` and the tri-form meta readers -/

/-- `Schema.$determine(key, meta, context)(fallbackRes)`: resolve a
tri-form meta node.  An object node uses its `determine` member (function
values run through `_trydo`); a function node runs through `_trydo`; any
other node is returned as is; an absent key or meta yields `fallbackRes`. -/
def Schema.getDetermine {Ctx : Type} (sch : Schema Ctx) (key meta : String) (ctx : Ctx)
    (fallbackRes : JSValue) : JSValue × List JSValue :=
  match sch.resolve key with
  | none => (fallbackRes, [])
  | some fd =>
    match fd.triMeta meta with
    | none => (fallbackRes, [])
    | some node =>
      match node with
      | .objn det _ =>
        match det with
        | some (.dfunc f) =>
          trydoSafe sch.onError (f ctx) (stdFallback fd.catchf ctx fallbackRes)
            [("key", .str key), ("meta", .str meta)]
        | some (.dval v) => (v, [])
        | none => (.undefined, [])
      | .func f =>
        trydoSafe sch.onError (f ctx) (stdFallback fd.catchf ctx fallbackRes)
          [("key", .str key), ("meta", .str meta)]
      | .val v => (v, [])

/-- `Schema.required(key, context)`. -/
def Schema.required {Ctx : Type} (sch : Schema Ctx) (key : String) (ctx : Ctx) :
    JSValue × List JSValue :=
  sch.getDetermine key "required" ctx (.bool false)

/-- `Schema.disabled(key, context)`. -/
def Schema.disabled {Ctx : Type} (sch : Schema Ctx) (key : String) (ctx : Ctx) :
    JSValue × List JSValue :=
  sch.getDetermine key "disabled" ctx (.bool false)

/-- `Schema.readonly(key, context)`. -/
def Schema.readonly {Ctx : Type} (sch : Schema Ctx) (key : String) (ctx : Ctx) :
    JSValue × List JSValue :=
  sch.getDetermine key "readonly" ctx (.bool false)

/-! ## `$message` -/

/-- The static table `Schema.defualtMessages` (the misspelling is the
source's), composed with `interpolate(…, { key })`, including the
fall-through template for an unknown meta. -/
def defaultMessageFor (meta key : String) : String :=
  if meta = "type" then key ++ " does not match type."
  else if meta = "compute" then key ++ " can not be set new value because it is a computed property."
  else if meta = "required" then key ++ " is required, but receive empty."
  else if meta = "readonly" then key ++ " can not be set new value because of readonly."
  else if meta = "disabled" then key ++ " can not be set new value because of disabled."
  else key ++ " " ++ meta ++ " error."

/-- The shape of `def[meta]` as inspected by `$message`: the three
tri-form metas carry their `TriNode`; a present `compute` or `type` meta
is a truthy node that is neither a boolean, a string, nor an object with
a usable `message` member, so every `$message` branch ends at the default
message for it — constructor `plain` captures exactly that. -/
inductive MsgView (Ctx : Type) where
  | tri (t : TriNode Ctx)
  | plain

/-- Dynamic meta access `def[meta]` for the metas `$message` is called
with. -/
def FieldDef.msgNode {Ctx : Type} (fd : FieldDef Ctx) (meta : String) : Option (MsgView Ctx) :=
  if meta = "required" then fd.required.map .tri
  else if meta = "readonly" then fd.readonly.map .tri
  else if meta = "disabled" then fd.disabled.map .tri
  else if meta = "compute" then fd.compute.map (fun _ => .plain)
  else if meta = "type" then fd.type.map (fun _ => .plain)
  else none

/-- The `!node` test of `$message`: only a falsy raw value is falsy;
functions and objects are truthy. -/
def msgFalsy {Ctx : Type} : MsgView Ctx → Bool
  | .tri (.val v) => !(truthy v)
  | _ => false

/-- `Schema.$message(key, meta, context)(givenMessage)`: resolve the
message for a meta.  A string `givenMessage` wins; a boolean or function
node yields the default message; a string node is used itself; an object
node with a truthy `message` member uses it (a function member runs
through `_trydo` with the default message as fallback); everything else
falls back to the default message.  Absent key, absent meta, or a falsy
node yield the empty string. -/
def Schema.getMessage {Ctx : Type} (sch : Schema Ctx) (key meta : String) (ctx : Ctx)
    (givenMessage : JSValue) : JSValue × List JSValue :=
  match sch.resolve key with
  | none => (.str "", [])
  | some fd =>
    match fd.msgNode meta with
    | none => (.str "", [])
    | some node =>
      if msgFalsy node then (.str "", [])
      else
        let dmsg := JSValue.str (defaultMessageFor meta key)
        if isStringJS givenMessage then (givenMessage, [])
        else
          match node with
          | .tri (.val (.bool _)) => (dmsg, [])
          | .tri (.val (.str s)) => (.str s, [])
          | .tri (.func _) => (dmsg, [])
          | .tri (.objn _ msgw) =>
            match msgw with
            | some (.mfunc mf) =>
              trydoSafe sch.onError (mf ctx meta) (stdFallback fd.catchf ctx dmsg)
                [("key", .str key), ("meta", .str "message")]
            | some (.mval v) =>
              if truthy v then
                match v with
                | .str s => (.str s, [])
                | _ => (dmsg, [])
              else (dmsg, [])
            | none => (dmsg, [])
          | .tri (.val _) => (dmsg, [])
          | .plain => (dmsg, [])

/-! ## `$default` -/

/-- `Schema.$default(key)`: the field's `default`; a function is invoked,
an object or array is deep-cloned, anything else (including an absent
`default`, i.e. `undefined`) is returned as is.  `none` models the
`TypeError` of destructuring an absent definition. -/
def Schema.getDefault {Ctx : Type} (sch : Schema Ctx) (key : String) : Option JSValue :=
  (sch.resolve key).map (fun fd =>
    match fd.default with
    | some (.func f) => f ()
    | some (.val v) => if isObjectJS v || isArrayJS v then cloneJS v else v
    | none => .undefined)

/-! ## The write path: `$set` and `set` -/

/-- `Schema.$set(key, value, context)`: an absent definition passes the
value through.  A `compute` field reports a compute error through
`onError` and returns the computed value, ignoring the written value.
Otherwise the `setter` (if any) transforms the value through `_trydo`,
then the `type` meta is checked and a mismatch is reported through
`onError`; the (possibly transformed) value is returned. -/
def Schema.applySet {Ctx : Type} (sch : Schema Ctx) (key : String) (value : JSValue)
    (ctx : Ctx) : JSValue × List JSValue :=
  match sch.resolve key with
  | none => (value, [])
  | some fd =>
    match fd.compute with
    | some f =>
      let m := sch.getMessage key "compute" ctx .undefined
      (f ctx,
        m.2 ++ [JSValue.obj [("key", .str key), ("action", .str "$set"), ("value", value),
          ("compute", .bool true), ("message", m.1)]])
    | none =>
      let sv : JSValue × List JSValue :=
        match fd.setter with
        | some s =>
          trydoSafe sch.onError (s ctx value) (stdFallback fd.catchf ctx value)
            [("key", .str key), ("meta", .str "setter")]
        | none => (value, [])
      let tychk : List JSValue :=
        match fd.type with
        | some chk =>
          match chk key sv.1 with
          | some err =>
            let m := sch.getMessage key "type" ctx ((fd.message).getD .undefined)
            m.2 ++ [JSValue.obj [("key", .str key), ("action", .str "$set"), ("value", sv.1),
              ("type", .bool true), ("error", err), ("message", m.1)]]
          | none => []
        | none => []
      (sv.1, sv.2 ++ tychk)

/-- `Schema.set(key, next, prev, context)`: an absent definition passes
`next` through; a truthy `disabled` or (checked second) `readonly`
reports a refusal through `onError` and returns `prev`; otherwise the
result of `$set` is returned.  The operation is total — it never
throws. -/
def Schema.set {Ctx : Type} (sch : Schema Ctx) (key : String) (next prev : JSValue)
    (ctx : Ctx) : JSValue × List JSValue :=
  match sch.resolve key with
  | none => (next, [])
  | some _ =>
    let dis := sch.disabled key ctx
    if truthy dis.1 then
      let m := sch.getMessage key "disabled" ctx dis.1
      (prev, dis.2 ++ m.2 ++ [JSValue.obj [("key", .str key), ("action", .str "set"),
        ("next", next), ("prev", prev), ("disabled", .bool true), ("message", m.1)]])
    else
      let ro := sch.readonly key ctx
      if truthy ro.1 then
        let m := sch.getMessage key "readonly" ctx ro.1
        (prev, dis.2 ++ ro.2 ++ m.2 ++ [JSValue.obj [("key", .str key), ("action", .str "set"),
          ("next", next), ("prev", prev), ("readonly", .bool true), ("message", m.1)]])
      else
        let v := sch.applySet key next ctx
        (v.1, dis.2 ++ ro.2 ++ v.2)

/-! ## The validator runner: `$validate` and `validate` -/

/-- The meta tag `'validators[' + index + '].' + part` used in `_trydo`
basics inside the validator runner. -/
def vmetaStr (index : Int) (part : String) : String :=
  "validators[" ++ toString index ++ "]." ++ part

/-- The inner `validate(validator, index, dontTry)` closure of
`Schema.$validate`.  Result `.ok none` means the validator passed (or was
skipped by `determine`); `.ok (some e)` is the error object to collect;
`.error e` is a propagating throw — either a rethrow under `dontTry`, or
the `ReferenceError` raised by `errors.push(...res)`, which references a
variable `errors` that is not in scope in the source (see the claim C7
analysis): a validator result that is an array therefore throws instead
of being spliced. -/
def runValidatorFn {Ctx : Type} (onErr : JSValue → JSValue)
    (handle : Option (Ctx → JSValue → JSValue)) (ctx : Ctx) (key : String) (value : JSValue)
    (validator : ValidatorDef Ctx) (index : Int) (dontTry : Bool) :
    Except JSValue (Option JSValue) × List JSValue :=
  let detStep : Except JSValue Bool × List JSValue :=
    match validator.determine with
    | some (.val (.bool false)) => (.ok false, [])
    | some (.func f) =>
      let r := trydo onErr (f ctx value key) (stdFallback handle ctx (.bool false))
        [("key", .str key), ("meta", .str (vmetaStr index "determine"))] dontTry
      (match r.1 with
       | .error e => .error e
       | .ok bv => .ok (truthy bv), r.2)
    | _ => (.ok true, [])
  match detStep.1 with
  | .error e => (.error e, detStep.2)
  | .ok false => (.ok none, detStep.2)
  | .ok true =>
    let vres := trydo onErr (validator.validate ctx value key) (stdFallback handle ctx (.bool true))
      [("key", .str key), ("meta", .str (vmetaStr index "validate"))] dontTry
    match vres.1 with
    | .error e => (.error e, detStep.2 ++ vres.2)
    | .ok res =>
      match res with
      | .bool true => (.ok none, detStep.2 ++ vres.2)
      | .arr _ => (.error (.error "errors is not defined"), detStep.2 ++ vres.2)
      | _ =>
        let msg0 : JSValue :=
          match res with
          | .error m => .str m
          | _ => .str ""
        match validator.message with
        | some (.func mf) =>
          let mres := trydo onErr (mf ctx value key res)
            (fun e => jsOr (callHandle handle ctx e)
              (jsOr msg0 (.str (key ++ " did not pass validators[" ++ toString index ++ "]"))))
            [("key", .str key), ("meta", .str (vmetaStr index "message"))] dontTry
          match mres.1 with
          | .error e => (.error e, detStep.2 ++ vres.2 ++ mres.2)
          | .ok m =>
            (.ok (some (JSValue.obj [("key", .str key), ("value", value), ("at", .num index),
              ("message", m)])), detStep.2 ++ vres.2 ++ mres.2)
        | some (.val mv) =>
          let m := if !(truthy msg0) && isStringJS mv then mv else msg0
          (.ok (some (JSValue.obj [("key", .str key), ("value", value), ("at", .num index),
            ("message", m)])), detStep.2 ++ vres.2)
        | none =>
          (.ok (some (JSValue.obj [("key", .str key), ("value", value), ("at", .num index),
            ("message", msg0)])), detStep.2 ++ vres.2)

/-- Array indexing `validators[i]` with a JS number index: out of range or
negative yields `undefined`, which `runOne` skips. -/
def getAtInt {α : Type} (xs : List α) (i : Int) : Option α :=
  if i < 0 then none else xs.get? i.toNat

/-- The loop body of `validateByRange`: run indices `i`, `i+1`, … for
`fuel` iterations (`fuel = end - start + 1`), collecting error objects in
order; a throw aborts the loop and propagates, discarding collected
errors (as in the source, where the exception escapes `$validate`). -/
def runRangeAux {Ctx : Type} (onErr : JSValue → JSValue)
    (handle : Option (Ctx → JSValue → JSValue)) (ctx : Ctx) (key : String) (value : JSValue)
    (dontTry : Bool) (validators : List (ValidatorDef Ctx)) :
    Nat → Int → Except JSValue (List JSValue) × List JSValue
  | 0, _ => (.ok [], [])
  | Nat.succ fuel, i =>
    match getAtInt validators i with
    | none => runRangeAux onErr handle ctx key value dontTry validators fuel (i + 1)
    | some validator =>
      let r := runValidatorFn onErr handle ctx key value validator i dontTry
      match r.1 with
      | .error e => (.error e, r.2)
      | .ok none =>
        let rest := runRangeAux onErr handle ctx key value dontTry validators fuel (i + 1)
        (rest.1, r.2 ++ rest.2)
      | .ok (some errObj) =>
        let rest := runRangeAux onErr handle ctx key value dontTry validators fuel (i + 1)
        ((match rest.1 with
          | .ok es => .ok (errObj :: es)
          | .error e => .error e), r.2 ++ rest.2)

/-- `validateByRange(dontTry, validators, [start, end])`: iterate from
`start` to `end` inclusive (defaults `0` and `validators.length - 1`). -/
def runRange {Ctx : Type} (onErr : JSValue → JSValue)
    (handle : Option (Ctx → JSValue → JSValue)) (ctx : Ctx) (key : String) (value : JSValue)
    (dontTry : Bool) (validators : List (ValidatorDef Ctx)) (start endI : Int) :
    Except JSValue (List JSValue) × List JSValue :=
  runRangeAux onErr handle ctx key value dontTry validators (endI - start + 1).toNat start

/-- `validateByIndexes(dontTry, validators, ...indexes)`: run the listed
indices in order; a throw propagates. -/
def runIdx {Ctx : Type} (onErr : JSValue → JSValue)
    (handle : Option (Ctx → JSValue → JSValue)) (ctx : Ctx) (key : String) (value : JSValue)
    (dontTry : Bool) (validators : List (ValidatorDef Ctx)) :
    List Int → Except JSValue (List JSValue) × List JSValue
  | [] => (.ok [], [])
  | i :: is =>
    match getAtInt validators i with
    | none => runIdx onErr handle ctx key value dontTry validators is
    | some validator =>
      let r := runValidatorFn onErr handle ctx key value validator i dontTry
      match r.1 with
      | .error e => (.error e, r.2)
      | .ok none =>
        let rest := runIdx onErr handle ctx key value dontTry validators is
        (rest.1, r.2 ++ rest.2)
      | .ok (some errObj) =>
        let rest := runIdx onErr handle ctx key value dontTry validators is
        ((match rest.1 with
          | .ok es => .ok (errObj :: es)
          | .error e => .error e), r.2 ++ rest.2)

/-- The argument given to the selector returned by `$validate`, mirroring
its `typeof` dispatch: a non-empty array of ad-hoc validator objects, an
array of numbers (an index range, possibly empty), a spread of number
indices, or anything else (which validates nothing). -/
inductive VArgs (Ctx : Type) where
  | objects (vs : List (ValidatorDef Ctx))
  | range (r : List Int)
  | indexes (is : List Int)
  | other (v : JSValue)

/-- `Schema.$validate(key, value, context)(args)`: the validator-runner
selector.  It short-circuits to `[]` when the field is `disabled`.  A
non-empty list of ad-hoc validator objects runs them with `dontTry = 1`
(raw throws propagate); an array of numbers runs the schema validators
over that index range; numbers run the listed indices; anything else
yields `[]`.  `.error` in the first component is a propagating throw. -/
def Schema.makeValidate {Ctx : Type} (sch : Schema Ctx) (key : String) (value : JSValue)
    (ctx : Ctx) (args : VArgs Ctx) : Except JSValue (List JSValue) × List JSValue :=
  match sch.resolve key with
  | none => (.error (.error "Cannot destructure property of undefined"), [])
  | some fd =>
    let handle := fd.catchf
    let validators := fd.validators.getD []
    let dis := sch.disabled key ctx
    if truthy dis.1 then (.ok [], dis.2)
    else
      let r :=
        match args with
        | .objects [] =>
          runRange sch.onError handle ctx key value false validators 0
            ((validators.length : Int) - 1)
        | .objects vs =>
          runRange sch.onError handle ctx key value true vs 0 ((vs.length : Int) - 1)
        | .range rn =>
          runRange sch.onError handle ctx key value false validators
            ((rn.get? 0).getD 0) ((rn.get? 1).getD ((validators.length : Int) - 1))
        | .indexes is =>
          runIdx sch.onError handle ctx key value false validators is
        | .other _ => (.ok [], [])
      (r.1, dis.2 ++ r.2)

/-- The type-checking step shared by `validate` (where a mismatch is
pushed onto the returned error list): the produced error objects and the
`onError` events of resolving the message. -/
def typeErrsOf {Ctx : Type} (sch : Schema Ctx) (fd : FieldDef Ctx) (key : String)
    (value : JSValue) (ctx : Ctx) : List JSValue × List JSValue :=
  match fd.type with
  | none => ([], [])
  | some chk =>
    match chk key value with
    | none => ([], [])
    | some err =>
      let m := sch.getMessage key "type" ctx ((fd.message).getD .undefined)
      ([JSValue.obj [("key", .str key), ("value", value), ("type", .bool true), ("error", err),
        ("message", m.1)]], m.2)

/-- `Schema.validate(key, value, context)`: a key at which `this[key]`
is `undefined` (no own definition and no inherited prototype property)
yields exactly one "not existing" error, while a key colliding with an
inherited property resolves truthy and proceeds with no metas; a truthy
`disabled` yields `[]`; a truthy
`required` on an empty value yields exactly the required error; otherwise
the type error (if any) followed by the validator errors.  The first
component is `.error` exactly when the validator run throws (the
`ReferenceError` of an array-valued validator result). -/
def Schema.validate {Ctx : Type} (sch : Schema Ctx) (key : String) (value : JSValue)
    (ctx : Ctx) : Except JSValue (List JSValue) × List JSValue :=
  match sch.resolve key with
  | none =>
    (.ok [JSValue.obj [("key", .str key), ("value", value),
      ("message", .str (key ++ " is not existing in schema."))]], [])
  | some fd =>
    let dis := sch.disabled key ctx
    if truthy dis.1 then (.ok [], dis.2)
    else
      let req := sch.required key ctx
      if truthy req.1 && isEmptyJS value then
        let m := sch.getMessage key "required" ctx req.1
        (.ok [JSValue.obj [("key", .str key), ("value", value), ("required", .bool true),
          ("message", m.1)]], dis.2 ++ req.2 ++ m.2)
      else
        let te := typeErrsOf sch fd key value ctx
        let vr := sch.makeValidate key value ctx (.range [])
        ((match vr.1 with
          | .ok errs => .ok (te.1 ++ errs)
          | .error e => .error e), dis.2 ++ req.2 ++ te.2 ++ vr.2)

/-! ## `export` -/

/-- The `flat` step for one field during `export`: the entries the field
contributes to the patch map, and the `onError` events of computing them.
The try body is `() => flat.call(context, value, key, data) || {}`; the
fallback is `isFunction(handle) && handle.call(context, error) || {}`;
`Object.assign(patch, res)` merges only object entries. -/
def flatPartOf {Ctx : Type} (sch : Schema Ctx) (data : JSValue) (ctx : Ctx) (key : String)
    (fd : FieldDef Ctx) : List (String × JSValue) × List JSValue :=
  match fd.flat with
  | none => ([], [])
  | some f =>
    let body : Except JSValue JSValue :=
      match f ctx (jget data key) key data with
      | .ok v => .ok (jsOr v (.obj []))
      | .error e => .error e
    let r := trydoSafe sch.onError body (stdFallback fd.catchf ctx (.obj []))
      [("key", .str key), ("meta", .str "flat")]
    (objEntries r.1, r.2)

/-- The `map`-or-raw emission at the end of the `export` loop body, after
no skip applied: `map(value, key, data)` through `_trydo` (fallback the
raw value) when `map` is a function, else the raw stored value. -/
def mapEmitOf {Ctx : Type} (sch : Schema Ctx) (data : JSValue) (ctx : Ctx) (key : String)
    (fd : FieldDef Ctx) : JSValue × List JSValue :=
  match fd.map with
  | some mf =>
    trydoSafe sch.onError (mf ctx (jget data key) key data) (stdFallback fd.catchf ctx (jget data key))
      [("key", .str key), ("meta", .str "map")]
  | none => (jget data key, [])

/-- The emission decision for one field during `export`: `none` when the
field is skipped — a truthy `disabled`, a boolean-`true` `drop`, or a
`drop` function returning truthy — otherwise the emitted value. -/
def emitOf {Ctx : Type} (sch : Schema Ctx) (data : JSValue) (ctx : Ctx) (key : String)
    (fd : FieldDef Ctx) : Option JSValue × List JSValue :=
  let dis := sch.disabled key ctx
  if truthy dis.1 then (none, dis.2)
  else
    match fd.drop with
    | some (.val (.bool true)) => (none, dis.2)
    | some (.func f) =>
      let r := trydoSafe sch.onError (f ctx (jget data key) key data)
        (stdFallback fd.catchf ctx (.bool false)) [("key", .str key), ("meta", .str "drop")]
      if truthy r.1 then (none, dis.2 ++ r.2)
      else
        let e := mapEmitOf sch data ctx key fd
        (some e.1, dis.2 ++ r.2 ++ e.2)
    | _ =>
      let e := mapEmitOf sch data ctx key fd
      (some e.1, dis.2 ++ e.2)

/-- The `each` loop of `Schema.export` over the field definitions:
returns the accumulated `output` entries, `patch` entries, and `onError`
events, in field order. -/
def exportGo {Ctx : Type} (sch : Schema Ctx) (data : JSValue) (ctx : Ctx) :
    List (String × FieldDef Ctx) →
    List (String × JSValue) × List (String × JSValue) × List JSValue
  | [] => ([], [], [])
  | (key, fd) :: rest =>
    let fp := flatPartOf sch data ctx key fd
    let em := emitOf sch data ctx key fd
    let r := exportGo sch data ctx rest
    (objAssignL (match em.1 with | some v => [(key, v)] | none => []) r.1,
     objAssignL fp.1 r.2.1,
     fp.2 ++ em.2 ++ r.2.2)

/-- `Schema.export(data, context)` (`export` is a Lean keyword): for each
field evaluate `flat` into the patch, then skip on disabled/drop, else
emit through `map` or raw; the result is `Object.assign(output, patch)`,
so patch entries overwrite same-named output entries. -/
def Schema.exportData {Ctx : Type} (sch : Schema Ctx) (data : JSValue) (ctx : Ctx) :
    JSValue × List JSValue :=
  let r := exportGo sch data ctx sch.defs
  (.obj (objAssignL r.1 r.2.1), r.2.2)

/-! ## Spec-side descriptions used by the refinement claims

The two definitions below transcribe the spec's description of `export`
(§4.3: "for each field, evaluate `flat` (merge result into a patch map);
then if disabled or `drop` truthy, skip; otherwise emit via `map` if
present else raw value. Final output = computed base ∪ patch (patch
wins)"), as two separate passes, with the drop condition as the code has
it (boolean `true`, or a function returning truthy). -/

/-- Spec-side patch pass: the `flat` contributions of every field (also
disabled or dropped ones), merged in field order. -/
def exportSpecPatch {Ctx : Type} (sch : Schema Ctx) (data : JSValue) (ctx : Ctx) :
    List (String × FieldDef Ctx) → List (String × JSValue)
  | [] => []
  | (key, fd) :: rest =>
    objAssignL (flatPartOf sch data ctx key fd).1 (exportSpecPatch sch data ctx rest)

/-- Spec-side output pass: each field is skipped when disabled, when
`drop` is boolean `true`, or when the `drop` function returns truthy, and
otherwise emits `map(value)` when `map` is a function, else the raw
stored value. -/
def exportSpecOutput {Ctx : Type} (sch : Schema Ctx) (data : JSValue) (ctx : Ctx) :
    List (String × FieldDef Ctx) → List (String × JSValue)
  | [] => []
  | (key, fd) :: rest =>
    objAssignL (match (emitOf sch data ctx key fd).1 with | some v => [(key, v)] | none => [])
      (exportSpecOutput sch data ctx rest)

/-- Spec-side description of `export`: emitted output merged with the
patch, patch entries winning. -/
def exportSpecModel {Ctx : Type} (sch : Schema Ctx) (data : JSValue) (ctx : Ctx) : JSValue :=
  .obj (objAssignL (exportSpecOutput sch data ctx sch.defs) (exportSpecPatch sch data ctx sch.defs))

/-- Spec-side description of `validate` on a defined key (the amended
claim C2): `[]` when disabled; exactly the required error when `required`
resolves truthy and the value is empty; otherwise the type error (if the
pattern rejects the value) followed by the given validator-run errors. -/
def validateSpecModel {Ctx : Type} (sch : Schema Ctx) (fd : FieldDef Ctx) (key : String)
    (value : JSValue) (ctx : Ctx) (validatorErrs : List JSValue) : List JSValue :=
  if truthy (sch.disabled key ctx).1 then []
  else if truthy (sch.required key ctx).1 && isEmptyJS value then
    [JSValue.obj [("key", .str key), ("value", value), ("required", .bool true),
      ("message", (sch.getMessage key "required" ctx (sch.required key ctx).1).1)]]
  else (typeErrsOf sch fd key value ctx).1 ++ validatorErrs

/-! ## The `Ty` facade: `expect` / `catch` -/

/-- A constructed type object of the ty layer, abstracted by the
behaviour of its `assert` method: `assertErr v` is the `TyError` that
`assert(v)` throws, or `none` when the assertion passes.  (The `Type`
base class, `type.js`, is not under `src/`; the facade in the sources
only calls `assert` and `catch` on the object `Ty.create` returns.) -/
structure TypeImpl where
  assertErr : JSValue → Option JSValue

/-- Modelled from the spec: `type.js` is not under `src/`; §4.2 fixes
`catch(value)` as the "non-throwing wrapper returning the `TyError` or
null" around `assert`. -/
def TypeImpl.catchErr (t : TypeImpl) (v : JSValue) : Option JSValue :=
  t.assertErr v

/-- `Ty.expect(value).to.match(type)` with the facade's `_silent` flag:
`Ty.create` the pattern, `try { assert(value); return true }`, and on a
throw run `this.throw(e)` — which rethrows `e` unless silenced — then
`return false`.  The `Pat → TypeImpl` argument abstracts `Ty.create`
(the `Dict`/`List`/`Type` constructors it dispatches to are not under
`src/`); both facade entry points route the pattern through the same
creation function. -/
def tyExpectMatch {Pat : Type} (create : Pat → TypeImpl) (silent : Bool) (v : JSValue)
    (p : Pat) : Except JSValue Bool :=
  match (create p).assertErr v with
  | none => .ok true
  | some e => if silent then .ok false else .error e

/-- `Ty.catch(value).by(type)`: `Ty.create` the pattern and return
`type.catch(value)` — the error object or null — never throwing (the
`dispatch` to bound listeners is asynchronous and carries no result). -/
def tyCatchBy {Pat : Type} (create : Pat → TypeImpl) (v : JSValue) (p : Pat) :
    Option JSValue :=
  (create p).catchErr v

/-! ## `Tuple.assert` -/

/-- The prototype tokens preregistered in the prototype registry
(`Prototype.register` calls at the end of `prototype.js`), plus the
registry's `typeof` dispatch below. -/
inductive ProtoT where
  | pnumber
  | pstring
  | pboolean
  | pobject
  | parray
  | pfunction
  | psymbol
  | pinfinity

/-- `Prototype.is(token).typeof(value)` for the preregistered tokens:
each token validates with its ts-fns predicate (`isNumber`, `isString`,
…).  Functions, symbols and `Infinity` have no counterpart among the
modelled pure values and match nothing here. -/
def protoValidate : ProtoT → JSValue → Bool
  | .pnumber, .num _ => true
  | .pstring, .str _ => true
  | .pboolean, .bool _ => true
  | .pobject, .obj _ => true
  | .parray, .arr _ => true
  | _, _ => false

/-- A structured `TyError`, reduced to the attribute the claims inspect:
its kind tag (`'mistaken'`, `'dirty'`, …). -/
structure TyErr where
  kind : String

/-- A positional pattern of a `Tuple`: a prototype token, or a `Rule`
abstracted by its `validate2(value, index, items)` hook (the `Rule`
class, `rule.js`, is not under `src/`; `Tuple.assert` only calls
`validate2` on it). -/
inductive TupPat where
  | proto (p : ProtoT)
  | rule (validate2 : JSValue → Int → List JSValue → Option TyErr)

/-- Modelled from the spec: `Type#validate(value, pattern)` lives in the
absent `type.js`.  For a prototype token it checks the value through the
registry and reports a `mistaken` `TyError` on failure (§7); for an
absent positional pattern — extra items in loose mode — it reports
nothing, as the spec fixes that "loose mode passes" extra items (§8,
scenario 4). -/
def typeValidateAt (value : JSValue) (p : Option TupPat) (index : Int) (items : List JSValue) :
    Option TyErr :=
  match p with
  | none => none
  | some (.proto t) => if protoValidate t value then none else some ⟨"mistaken"⟩
  | some (.rule r) => r value index items

/-- A `Tuple` type instance: its positional patterns and its
strict/loose mode flag.  The mode flag is inherited from the absent
`Type` base class; the spec fixes loose as the default and `strict` as
the opt-in mode. -/
structure TupleT where
  pattern : List TupPat
  mode : String

/-- `new Tuple(pattern)`: a tuple type in the default loose mode. -/
def mkTuple (pattern : List TupPat) : TupleT := ⟨pattern, "loose"⟩

/-- The strict-mode variant of a tuple type. -/
def toStrict (t : TupleT) : TupleT := ⟨t.pattern, "strict"⟩

/-- The item loop of `Tuple.assert`: validate every item against its
positional pattern (a `Rule` through `validate2`, else through
`Type#validate`), throwing the first error. -/
def tupleAssertItems (patterns : List TupPat) (all : List JSValue) :
    List JSValue → Int → Option TyErr
  | [], _ => none
  | v :: rest, i =>
    match typeValidateAt v (getAtInt patterns i) i all with
    | some e => some e
    | none => tupleAssertItems patterns all rest (i + 1)

/-- `Tuple.assert(value)`: a non-array value throws `mistaken`; in strict
mode an item count different from the pattern count throws `dirty`; then
every item is validated positionally.  `some e` models a throw of `e`;
`none` models a normal return. -/
def tupleAssert (t : TupleT) (value : JSValue) : Option TyErr :=
  match value with
  | .arr items =>
    if t.mode = "strict" ∧ items.length ≠ t.pattern.length then some ⟨"dirty"⟩
    else tupleAssertItems t.pattern items items 0
  | _ => some ⟨"mistaken"⟩

/-! ## Concrete fixtures

Small concrete schemas (context type `Unit`) used to instantiate the
theorems below on executable inputs.  The thirteen `FieldDef` components
are, in order: `default`, `compute`, `type`, `message`, `validators`,
`drop`, `map`, `flat`, `setter`, `required`, `readonly`, `disabled`,
`catch`.  (`fdEmpty`, the all-absent definition, is declared next to
`Schema.resolve` above.) -/

/-- A field with `disabled: true`. -/
def fdDis : FieldDef Unit :=
  ⟨none, none, none, none, none, none, none, none, none, none, none,
    some (.val (.bool true)), none⟩

/-- A schema with one `disabled: true` field `a`. -/
def schDis : Schema Unit := ⟨[("a", fdDis)], fun _ => .undefined⟩

/-- A field whose single validator returns an array (the nested-submodel
convention of the source comment). -/
def fdArrV : FieldDef Unit :=
  ⟨none, none, none, none,
    some [⟨none, fun _ _ _ => .ok (.arr [.obj [("message", .str "sub")]]), none⟩],
    none, none, none, none, none, none, none, none⟩

/-- A schema with the array-returning validator on field `a`. -/
def schArrV : Schema Unit := ⟨[("a", fdArrV)], fun _ => .undefined⟩

/-- A field with `required: true` and one always-failing validator with a
string message. -/
def fdReqVal : FieldDef Unit :=
  ⟨none, none, none, none,
    some [⟨none, fun _ _ _ => .ok (.bool false), some (.val (.str "bad"))⟩],
    none, none, none, none, some (.val (.bool true)), none, none, none⟩

/-- A schema with the required/validator field `a`. -/
def schReqVal : Schema Unit := ⟨[("a", fdReqVal)], fun _ => .undefined⟩

/-- A field with the non-boolean truthy meta `drop: 1`. -/
def fdDropOne : FieldDef Unit :=
  ⟨none, none, none, none, none, some (.val (.num 1)), none, none, none, none, none, none, none⟩

/-- A schema with the `drop: 1` field `a`. -/
def schDropOne : Schema Unit := ⟨[("a", fdDropOne)], fun _ => .undefined⟩

/-- A computed field (`compute` returns `42`). -/
def fdComp : FieldDef Unit :=
  ⟨none, some (fun _ => .num 42), none, none, none, none, none, none, none, none, none, none, none⟩

/-- A schema with the computed field `c`. -/
def schComp : Schema Unit := ⟨[("c", fdComp)], fun _ => .undefined⟩

/-- A field whose `default` is an object literal. -/
def fdDefObj : FieldDef Unit :=
  ⟨some (.val (.obj [("x", .num 1)])), none, none, none, none, none, none, none, none, none,
    none, none, none⟩

/-- A schema with the object-default field `d`. -/
def schDefObj : Schema Unit := ⟨[("d", fdDefObj)], fun _ => .undefined⟩

/-- A schema with no fields. -/
def schEmpty : Schema Unit := ⟨[], fun _ => .undefined⟩

/-- A concrete type object accepting exactly numbers, used to instantiate
the `Ty` facade theorem. -/
def numTypeImpl : TypeImpl := ⟨fun v => match v with | .num _ => none | _ => some (.error "mistaken")⟩

/-- A concrete `Ty.create` abstraction over a one-point pattern type. -/
def numCreate : Unit → TypeImpl := fun _ => numTypeImpl

/-! ## Theorems -/

/-- Claim C1: for every defined field key and context, `Schema.set`
first evaluates the field's `disabled` meta and then its `readonly`
meta; if either resolves truthy it reports an error object through
`onError` and returns `prev` unchanged (the operation is total, so it
never throws — note the readonly events are absent when `disabled`
already refused, i.e. `readonly` is not even evaluated); only when both
are falsy does it delegate to `$set` (`Schema.applySet`) and return its
result. -/
theorem set_gate_disabled_readonly {Ctx : Type} (sch : Schema Ctx) (key : String)
    (next prev : JSValue) (ctx : Ctx) (fd : FieldDef Ctx)
    (hdef : sch.lookup key = some fd) :
    (truthy (sch.disabled key ctx).1 = true →
      Schema.set sch key next prev ctx =
        (prev, (sch.disabled key ctx).2
          ++ (sch.getMessage key "disabled" ctx (sch.disabled key ctx).1).2
          ++ [JSValue.obj [("key", .str key), ("action", .str "set"), ("next", next),
            ("prev", prev), ("disabled", .bool true),
            ("message", (sch.getMessage key "disabled" ctx (sch.disabled key ctx).1).1)]])) ∧
    (truthy (sch.disabled key ctx).1 = false →
      truthy (sch.readonly key ctx).1 = true →
      Schema.set sch key next prev ctx =
        (prev, (sch.disabled key ctx).2 ++ (sch.readonly key ctx).2
          ++ (sch.getMessage key "readonly" ctx (sch.readonly key ctx).1).2
          ++ [JSValue.obj [("key", .str key), ("action", .str "set"), ("next", next),
            ("prev", prev), ("readonly", .bool true),
            ("message", (sch.getMessage key "readonly" ctx (sch.readonly key ctx).1).1)]])) ∧
    (truthy (sch.disabled key ctx).1 = false →
      truthy (sch.readonly key ctx).1 = false →
      Schema.set sch key next prev ctx =
        ((sch.applySet key next ctx).1,
          (sch.disabled key ctx).2 ++ (sch.readonly key ctx).2
            ++ (sch.applySet key next ctx).2)) := by
  refine ⟨fun h1 => ?_, fun h1 h2 => ?_, fun h1 h2 => ?_⟩
  · simp [Schema.set, Schema.resolve, hdef, h1]
  · simp [Schema.set, Schema.resolve, hdef, h1, h2]
  · simp [Schema.set, Schema.resolve, hdef, h1, h2]

/-- Witness for C1: on a concrete schema whose field `a` is
`disabled: true`, `set` returns the previous value and reports the
refusal. -/
theorem set_gate_disabled_readonly_witness :
    Schema.set schDis "a" (.num 1) (.num 0) () =
      (.num 0, [JSValue.obj [("key", .str "a"), ("action", .str "set"), ("next", .num 1),
        ("prev", .num 0), ("disabled", .bool true),
        ("message", .str "a can not be set new value because of disabled.")]]) :=
  (set_gate_disabled_readonly schDis "a" (.num 1) (.num 0) () fdDis rfl).1 rfl

/-- Counterexample for C2: `Schema.validate` does not always return an
array.  When a validator's `validate` function returns an array (the
nested-submodel convention), the runner's `errors.push(...res)` hits the
out-of-scope variable `errors` and the resulting `ReferenceError`
propagates out of `validate`. -/
theorem validate_array_validator_throws :
    (Schema.validate schArrV "a" (.num 1) ()).1 = .error (.error "errors is not defined") := rfl

/-- Claim C2 (amended): provided the validator run completes — no
validator result is an array, which would trigger the `ReferenceError`
of the `errors.push(...res)` scope bug — `Schema.validate` on a defined
key returns `[]` when `disabled` resolves truthy; exactly the required
error when `required` resolves truthy and the value is empty (no type
check, no validators); and otherwise the type error (if the pattern
rejects the value) followed by the validator errors in order. -/
theorem validate_stages_amended {Ctx : Type} (sch : Schema Ctx) (key : String)
    (value : JSValue) (ctx : Ctx) (fd : FieldDef Ctx) (es : List JSValue)
    (hdef : sch.lookup key = some fd)
    (hrun : (Schema.makeValidate sch key value ctx (.range [])).1 = .ok es) :
    (Schema.validate sch key value ctx).1 = .ok (validateSpecModel sch fd key value ctx es) := by
  simp only [Schema.validate, Schema.resolve, validateSpecModel, hdef]
  by_cases h1 : truthy (sch.disabled key ctx).1 = true
  · simp [h1]
  · by_cases h2 : (truthy (sch.required key ctx).1 && isEmptyJS value) = true
    · simp [h1, h2]
    · simp [h1, h2, hrun]

/-- Witness for C2: a concrete field with `required: true` and one
failing validator with message `'bad'`; a non-empty value skips the
required error and collects exactly the validator error. -/
theorem validate_stages_amended_witness :
    (Schema.validate schReqVal "a" (.str "x") ()).1 =
      .ok [JSValue.obj [("key", .str "a"), ("value", .str "x"), ("at", .num 0),
        ("message", .str "bad")]] :=
  validate_stages_amended schReqVal "a" (.str "x") () fdReqVal
    [JSValue.obj [("key", .str "a"), ("value", .str "x"), ("at", .num 0),
      ("message", .str "bad")]] rfl rfl

/-- Counterexample for C3: a field whose `drop` meta is the truthy
non-boolean value `1` is *not* skipped by `export` — the source only
skips on boolean `true` or a function returning truthy, so "drop
is/returns truthy ⇒ skip" fails as stated. -/
theorem export_truthy_drop_counterexample :
    truthy (.num 1) = true ∧
    (Schema.exportData schDropOne (.obj [("a", .num 5)]) ()).1 = .obj [("a", .num 5)] :=
  ⟨rfl, rfl⟩

/-- Inductive core of the C3 refinement: the single `each` loop of
`export` computes the same output entries and the same patch entries as
the two spec-side passes. -/
theorem exportGo_spec {Ctx : Type} (sch : Schema Ctx) (data : JSValue) (ctx : Ctx) :
    ∀ defs : List (String × FieldDef Ctx),
      (exportGo sch data ctx defs).1 = exportSpecOutput sch data ctx defs ∧
      (exportGo sch data ctx defs).2.1 = exportSpecPatch sch data ctx defs
  | [] => ⟨rfl, rfl⟩
  | (key, fd) :: rest => by
    have ih := exportGo_spec sch data ctx rest
    simp [exportGo, exportSpecOutput, exportSpecPatch, ih.1, ih.2]

/-- Claim C3 (amended): `Schema.export` evaluates each field's `flat`
into a patch map before (and regardless of) the disabled/drop decision;
it skips a field when `disabled` resolves truthy, when `drop` is the
boolean `true`, or when the `drop` function returns truthy (a truthy
non-boolean, non-function `drop` does not skip — see the
counterexample); otherwise it emits `map(value)` when `map` is a
function, else the raw stored value; and the final result is the emitted
output merged with the patch, patch entries overwriting same-named
output entries. -/
theorem export_flat_drop_map_patch {Ctx : Type} (sch : Schema Ctx) (data : JSValue)
    (ctx : Ctx) :
    (Schema.exportData sch data ctx).1 = exportSpecModel sch data ctx := by
  have h := exportGo_spec sch data ctx sch.defs
  simp [Schema.exportData, exportSpecModel, h.1, h.2]

/-- Claim C4: for every pattern and value, `Ty.catch(V).by(P)` returns
null exactly when `Ty.expect(V).to.match(P)` does not throw; on a
mismatch the non-silenced `expect` throws the `TyError` itself, while
`catch` (a total function into `Option`) never throws and the silenced
`expect` returns `false`. -/
theorem ty_catch_iff_expect {Pat : Type} (create : Pat → TypeImpl) (v : JSValue) (p : Pat) :
    (tyCatchBy create v p = none ↔ tyExpectMatch create false v p = .ok true) ∧
    (∀ e, tyCatchBy create v p = some e →
      tyExpectMatch create false v p = .error e ∧ tyExpectMatch create true v p = .ok false) := by
  unfold tyCatchBy tyExpectMatch TypeImpl.catchErr
  cases h : (create p).assertErr v <;> simp

/-- Witness for C4: a concrete number type rejecting the string `'x'`:
`catch` returns the error, non-silenced `expect` throws it, silenced
`expect` returns false. -/
theorem ty_catch_iff_expect_witness :
    tyExpectMatch numCreate false (.str "x") () = .error (.error "mistaken") ∧
    tyExpectMatch numCreate true (.str "x") () = .ok false :=
  (ty_catch_iff_expect numCreate (.str "x") ()).2 (.error "mistaken") rfl

/-- Claim C5: the schema's meta-invocation wrapper `_trydo` catches a
thrown error exactly once (one `onError` event), normalises it to an
object carrying the key, the meta name and the error, lets a non-falsy
`onError` return value substitute the error object, and hands the result
to the call site's fallback — which invokes the field's `catch` handler
(if defined) to produce the fallback value; a successful call emits
nothing; under `force` the wrapper is bypassed and the raw outcome (in
particular a thrown error) propagates.  The last conjunct shows a
schema meta invocation (`$determine` on a function node) routed through
exactly this wrapper. -/
theorem trydo_error_routing {Ctx : Type} (onErr : JSValue → JSValue)
    (handle : Option (Ctx → JSValue → JSValue)) (ctx : Ctx) (fb : JSValue)
    (key meta : String) (fn : Except JSValue JSValue) :
    (∀ e, fn = .error e →
      trydo onErr fn (stdFallback handle ctx fb) [("key", .str key), ("meta", .str meta)] false =
        (.ok (stdFallback handle ctx fb
          (jsOr (onErr (JSValue.obj [("key", .str key), ("meta", .str meta), ("error", e)]))
            (JSValue.obj [("key", .str key), ("meta", .str meta), ("error", e)]))),
          [JSValue.obj [("key", .str key), ("meta", .str meta), ("error", e)]])) ∧
    (∀ v, fn = .ok v →
      trydo onErr fn (stdFallback handle ctx fb) [("key", .str key), ("meta", .str meta)] false =
        (.ok v, [])) ∧
    (trydo onErr fn (stdFallback handle ctx fb) [("key", .str key), ("meta", .str meta)] true =
      (fn, [])) ∧
    (∀ (sch : Schema Ctx) (fd : FieldDef Ctx) (f : Ctx → Except JSValue JSValue),
      sch.lookup key = some fd → fd.triMeta meta = some (.func f) →
      sch.getDetermine key meta ctx fb =
        trydoSafe sch.onError (f ctx) (stdFallback fd.catchf ctx fb)
          [("key", .str key), ("meta", .str meta)]) := by
  refine ⟨fun e he => ?_, fun v hv => ?_, ?_, fun sch fd f h1 h2 => ?_⟩
  · subst he; simp [trydo, trydoSafe]
  · subst hv; simp [trydo, trydoSafe]
  · simp [trydo]
  · simp [Schema.getDetermine, Schema.resolve, h1, h2]

/-- Witness for C5: a concrete throw routed through the wrapper — the
catch handler wraps the normalised (unsubstituted, since `onError`
returns undefined) error object, and exactly one event is recorded. -/
theorem trydo_error_routing_witness :
    trydo (fun _ => JSValue.undefined) (.error (.str "boom"))
      (stdFallback (some (fun (_ : Unit) e => JSValue.arr [e])) () (.num 7))
      [("key", .str "k"), ("meta", .str "getter")] false =
      (.ok (JSValue.arr [JSValue.obj [("key", .str "k"), ("meta", .str "getter"),
        ("error", .str "boom")]]),
        [JSValue.obj [("key", .str "k"), ("meta", .str "getter"), ("error", .str "boom")]]) :=
  (trydo_error_routing (fun _ => JSValue.undefined) (some (fun (_ : Unit) e => JSValue.arr [e]))
    () (.num 7) "k" "getter" (.error (.str "boom"))).1 (.str "boom") rfl

/-- Claim C6: `$set` on a field with a `compute` meta reports a
compute-kind error through `onError` and still returns the result of
invoking the compute function against the context; the returned value
does not depend on the value passed in. -/
theorem applySet_compute_reports {Ctx : Type} (sch : Schema Ctx) (key : String)
    (value : JSValue) (ctx : Ctx) (fd : FieldDef Ctx) (f : Ctx → JSValue)
    (hdef : sch.lookup key = some fd) (hc : fd.compute = some f) :
    Schema.applySet sch key value ctx =
      (f ctx, (sch.getMessage key "compute" ctx .undefined).2
        ++ [JSValue.obj [("key", .str key), ("action", .str "$set"), ("value", value),
          ("compute", .bool true),
          ("message", (sch.getMessage key "compute" ctx .undefined).1)]]) ∧
    (∀ v w : JSValue, (Schema.applySet sch key v ctx).1 = (Schema.applySet sch key w ctx).1) := by
  constructor
  · simp [Schema.applySet, Schema.resolve, hdef, hc]
  · intro v w; simp [Schema.applySet, Schema.resolve, hdef, hc]

/-- Witness for C6: a concrete computed field returning `42`: writing `5`
reports the compute error and returns `42`. -/
theorem applySet_compute_reports_witness :
    Schema.applySet schComp "c" (.num 5) () =
      (.num 42, [JSValue.obj [("key", .str "c"), ("action", .str "$set"), ("value", .num 5),
        ("compute", .bool true),
        ("message", .str "c can not be set new value because it is a computed property.")]]) :=
  (applySet_compute_reports schComp "c" (.num 5) () fdComp (fun _ => .num 42) rfl rfl).1

/-- Claim C7 (code bug): a validator whose `validate` function returns an
array is documented (source comment and spec) to have its elements
spliced into the error list as nested submodel errors, but the runner's
`errors.push(...res)` references a variable `errors` that is not in
scope in `$validate`, so the run throws a `ReferenceError` instead. -/
theorem validator_array_reference_error :
    (Schema.makeValidate schArrV "a" (.num 1) () (.range [])).1 =
      .error (.error "errors is not defined") := rfl

/-- Claim C8: `$default` invokes a function default, deep-clones an
object or array default through `cloneJS` (which rebuilds every node, so
two calls never share a mutable reference), and returns any other
default value itself. -/
theorem getDefault_branches {Ctx : Type} (sch : Schema Ctx) (key : String) (fd : FieldDef Ctx)
    (hdef : sch.lookup key = some fd) :
    (∀ f, fd.default = some (.func f) → Schema.getDefault sch key = some (f ())) ∧
    (∀ v, fd.default = some (.val v) → (isObjectJS v || isArrayJS v) = true →
      Schema.getDefault sch key = some (cloneJS v)) ∧
    (∀ v, fd.default = some (.val v) → (isObjectJS v || isArrayJS v) = false →
      Schema.getDefault sch key = some v) := by
  refine ⟨fun f hf => ?_, fun v hv ho => ?_, fun v hv ho => ?_⟩
  · simp [Schema.getDefault, Schema.resolve, hdef, hf]
  · cases v <;> simp_all [Schema.getDefault, Schema.resolve, hdef, isObjectJS, isArrayJS]
  · cases v <;> simp_all [Schema.getDefault, Schema.resolve, hdef, isObjectJS, isArrayJS]

/-- Witness for C8: a concrete object default is returned as a deep
clone (structurally equal, freshly rebuilt). -/
theorem getDefault_branches_witness :
    Schema.getDefault schDefObj "d" = some (JSValue.obj [("x", JSValue.num 1)]) :=
  (getDefault_branches schDefObj "d" fdDefObj rfl).2.1 (.obj [("x", .num 1)]) rfl rfl

/-- Claim C9: `Tuple([Number, String]).assert([1,'a'])` passes; in strict
mode `assert([1,'a','x'])` throws a `TyError` of kind `'dirty'` (item
count differs from pattern count); in the default loose mode
`assert([1,'a','x'])` passes. -/
theorem tuple_assert_strict_dirty_loose :
    tupleAssert (mkTuple [.proto .pnumber, .proto .pstring]) (.arr [.num 1, .str "a"]) = none ∧
    tupleAssert (toStrict (mkTuple [.proto .pnumber, .proto .pstring]))
      (.arr [.num 1, .str "a", .str "x"]) = some ⟨"dirty"⟩ ∧
    tupleAssert (mkTuple [.proto .pnumber, .proto .pstring])
      (.arr [.num 1, .str "a", .str "x"]) = none :=
  ⟨rfl, rfl, rfl⟩

/-- Counterexample for C10: `'toString'` has no definition in the empty
schema, yet `this['toString']` resolves through the prototype chain to
the inherited (truthy) `Object.prototype.toString`, so the source's
`!def` test fails and `validate` returns the empty array — not the
"not existing" error the claim asserts for every undefined key. -/
theorem validate_prototype_key_returns_empty :
    schEmpty.lookup "toString" = none ∧
    Schema.validate schEmpty "toString" (.num 3) () = (.ok [], []) :=
  ⟨rfl, rfl⟩

/-- Claim C10 (amended): validating a key that has no definition in the
schema *and does not collide with an inherited prototype property* (a
`Schema.prototype` method, `constructor`, or an `Object.prototype`
member such as `toString`) returns exactly one error stating the key is
not existing in the schema — not the empty array, and without throwing
(the result is `.ok` and no `onError` event is emitted).  A colliding
key resolves truthy, carries no metas, and yields `[]` instead (see the
counterexample). -/
theorem validate_unknown_key_amended {Ctx : Type} (sch : Schema Ctx) (key : String)
    (value : JSValue) (ctx : Ctx) (h : sch.lookup key = none)
    (hp : protoChainKeys.contains key = false) :
    Schema.validate sch key value ctx =
      (.ok [JSValue.obj [("key", .str key), ("value", value),
        ("message", .str (key ++ " is not existing in schema."))]], []) := by
  simp at hp
  simp [Schema.validate, Schema.resolve, h, hp]

/-- Witness for C10: the empty schema on key `zzz`, which neither has a
definition nor collides with a prototype property. -/
theorem validate_unknown_key_amended_witness :
    Schema.validate schEmpty "zzz" (.num 3) () =
      (.ok [JSValue.obj [("key", .str "zzz"), ("value", .num 3),
        ("message", .str "zzz is not existing in schema.")]], []) :=
  validate_unknown_key_amended schEmpty "zzz" (.num 3) () rfl rfl
